import Mathlib

/-!
Shallow embedding of the guitaty-backend ledger core:

* `src/routes/transactions.ts` — the POST / PUT /:id / DELETE /:id handlers
  that persist a transaction and adjust the owning account's cached balance
  (`prisma.account.update` with an `increment`), skipping TRANSFER-type
  transactions.
* `src/services/subscriptionProcessor.ts` (`processSubscriptions`) — the
  daily billing run that turns each due subscription into one EXPENSE
  transaction, decrements the account balance, and advances
  `nextBillingDate` with JavaScript `Date.setMonth` / `setFullYear`.

Modelling conventions: monetary amounts (JS numbers / Prisma Decimal) are
`Rat`; record ids are `Nat`; the Prisma stores are plain lists inside a `DB`
record; cuid generation is modelled by a `nextId` counter.  The routes are
single-user in the model (the `userId` scoping of every Prisma `where` is
collapsed away).  Each handler is embedded twice where needed: a pure
success-path function (every storage call succeeds; a 404 / validation
failure leaves the store untouched), and a fallible variant in which each
individual storage `await` may fail.  The Prisma calls in the source are
separate sequential awaits with no surrounding `$transaction`, so in the
fallible variant a failure of a later call leaves the earlier writes
committed, exactly as the source behaves.
-/

/-- Transaction type enum (`'INCOME' | 'EXPENSE' | 'TRANSFER'`). -/
inductive TxType where
  | INCOME
  | EXPENSE
  | TRANSFER
deriving DecidableEq

/-- Subscription billing cycle enum (`'MONTHLY' | 'YEARLY'`). -/
inductive BillingCycle where
  | MONTHLY
  | YEARLY
deriving DecidableEq

/-- The spec's delta function: signed balance contribution of a transaction. -/
def delta : TxType → Rat → Rat
  | .INCOME, a => a
  | .EXPENSE, a => -a
  | .TRANSFER, _ => 0

/-- Calendar date with 1-based month and day (JS `Date`, date part only). -/
structure JsDate where
  year : Nat
  month : Nat
  day : Nat
deriving DecidableEq

/-- JS leap-year rule used by `Date`. -/
def isLeapYear (y : Nat) : Bool :=
  decide (y % 4 = 0 ∧ (y % 100 ≠ 0 ∨ y % 400 = 0))

/-- Number of days in a month (1-based). -/
def daysInMonth (y : Nat) (m : Nat) : Nat :=
  if m = 2 then (if isLeapYear y then 29 else 28)
  else if m = 4 ∨ m = 6 ∨ m = 9 ∨ m = 11 then 30
  else 31

/-- Date comparison used for the `nextBillingDate: { lte: now }` filter. -/
def dateLe (a b : JsDate) : Bool :=
  decide (a.year < b.year ∨ (a.year = b.year ∧
    (a.month < b.month ∨ (a.month = b.month ∧ a.day ≤ b.day))))

/-- Embedding of `d.setMonth(d.getMonth() + 1)`: JS normalizes an out-of-range day by
overflowing into the following month (it never clamps to the month end).
A valid input day is at most 31 and every month has at least 28 days, so a
single overflow step is enough. -/
def addMonthJs (d : JsDate) : JsDate :=
  let y1 := if d.month + 1 > 12 then d.year + 1 else d.year
  let m1 := if d.month + 1 > 12 then d.month + 1 - 12 else d.month + 1
  if d.day > daysInMonth y1 m1 then
    let y2 := if m1 + 1 > 12 then y1 + 1 else y1
    let m2 := if m1 + 1 > 12 then m1 + 1 - 12 else m1 + 1
    { year := y2, month := m2, day := d.day - daysInMonth y1 m1 }
  else
    { year := y1, month := m1, day := d.day }

/-- Embedding of `d.setFullYear(d.getFullYear() + 1)`: only Feb 29 can
overflow (into Mar 1 of the following year). -/
def addYearJs (d : JsDate) : JsDate :=
  if d.day > daysInMonth (d.year + 1) d.month then
    { year := d.year + 1, month := d.month + 1,
      day := d.day - daysInMonth (d.year + 1) d.month }
  else
    { year := d.year + 1, month := d.month, day := d.day }

/-- Metadata attached by the scheduler to subscription-originated
transactions. -/
structure TxMeta where
  subscriptionId : Nat
  subscriptionName : String
  billingCycle : BillingCycle
deriving DecidableEq

/-- A row of the `transaction` table (fields relevant to the core). -/
structure Transaction where
  id : Nat
  amount : Rat
  description : Option String
  type : TxType
  date : JsDate
  currency : String
  accountId : Nat
  categoryId : Option Nat
  metadata : Option TxMeta
deriving DecidableEq

/-- A row of the `account` table. -/
structure Account where
  id : Nat
  balance : Rat
  currency : String
  isActive : Bool
deriving DecidableEq

/-- A row of the `subscription` table.  The subscription's own `currency`
field is never read by the scheduler (the emitted transaction takes the
account's currency instead). -/
structure Subscription where
  id : Nat
  name : String
  description : Option String
  amount : Rat
  currency : String
  billingCycle : BillingCycle
  nextBillingDate : JsDate
  accountId : Nat
  categoryId : Option Nat
  isActive : Bool
deriving DecidableEq

/-- The storage state: the Prisma tables plus an id counter standing in for
cuid generation.  `categories` holds the ids visible to the user (own or
default). -/
structure DB where
  accounts : List Account
  categories : List Nat
  txs : List Transaction
  subs : List Subscription
  nextId : Nat
deriving DecidableEq

/-- Balance of the account row with the given id, if present. -/
def balanceOf (db : DB) (accId : Nat) : Option Rat :=
  (db.accounts.find? (fun a => a.id == accId)).map (fun a => a.balance)

/-- Embedding of `prisma.account.update` with a `balance: { increment }`
data clause: bump one account's balance. -/
def adjust (accId : Nat) (d : Rat) (a : Account) : Account :=
  if a.id == accId then { a with balance := a.balance + d } else a

/-- Apply a balance increment to the account store. -/
def updateBalance (db : DB) (accId : Nat) (d : Rat) : DB :=
  { db with accounts := db.accounts.map (adjust accId d) }

/-- Embedding of `prisma.account.findFirst` on `{ id, isActive: true }`. -/
def findActiveAccount (db : DB) (accId : Nat) : Option Account :=
  db.accounts.find? (fun a => a.id == accId && a.isActive)

/-- The category existence check (`findFirst` on id, user-or-default),
passed trivially when no categoryId is supplied. -/
def categoryOk (db : DB) (categoryId : Option Nat) : Bool :=
  match categoryId with
  | some cid => db.categories.contains cid
  | none => true

/-- Body of POST /api/transactions after zod validation
(`CreateTransactionSchema`). -/
structure CreateTransactionInput where
  amount : Rat
  description : Option String
  type : TxType
  date : JsDate
  accountId : Nat
  categoryId : Option Nat
deriving DecidableEq

/-- The transaction row written by POST /api/transactions:
`{ ...validatedData, currency: account.currency }` with the id freshly
generated. -/
def newTxOfCreate (db : DB) (req : CreateTransactionInput) (account : Account) : Transaction :=
  { id := db.nextId, amount := req.amount, description := req.description,
    type := req.type, date := req.date, currency := account.currency,
    accountId := req.accountId, categoryId := req.categoryId, metadata := none }

/-- POST /api/transactions, success path.  Returns the new store and the
list of balance updates issued (accountId, increment); `none` models the
zod rejection (amount must be positive) and the 404 outcomes, all of which
leave the store untouched.  After the insert, the balance update is skipped
when the type is TRANSFER; otherwise the increment is
`type === 'EXPENSE' ? -amount : amount`. -/
def createTransaction (db : DB) (req : CreateTransactionInput) :
    Option (DB × List (Nat × Rat)) :=
  if req.amount ≤ 0 then none
  else match findActiveAccount db req.accountId with
    | none => none
    | some account =>
      if !(categoryOk db req.categoryId) then none
      else
        let tx := newTxOfCreate db req account
        let db1 := { db with txs := db.txs ++ [tx], nextId := db.nextId + 1 }
        if req.type == .TRANSFER then some (db1, [])
        else
          let change := if req.type == .EXPENSE then -req.amount else req.amount
          some (updateBalance db1 req.accountId change, [(req.accountId, change)])

/-- Body of PUT /api/transactions/:id after zod validation
(`UpdateTransactionSchema`): every field optional. -/
structure UpdateTransactionInput where
  amount : Option Rat
  description : Option String
  type : Option TxType
  date : Option JsDate
  accountId : Option Nat
  categoryId : Option Nat
deriving DecidableEq

/-- The guard of the balance-rework block in PUT /:id:
`validatedData.amount !== undefined || validatedData.type !== undefined ||
validatedData.accountId !== undefined`. -/
def balanceTouched (req : UpdateTransactionInput) : Bool :=
  req.amount.isSome || req.type.isSome || req.accountId.isSome

/-- The row after `prisma.transaction.update({ where: { id }, data:
validatedData })`: present fields replace the stored ones. -/
def newTxOfUpdate (existing : Transaction) (req : UpdateTransactionInput) : Transaction :=
  { existing with
    amount := req.amount.getD existing.amount,
    description := match req.description with
      | some d => some d
      | none => existing.description,
    type := req.type.getD existing.type,
    date := req.date.getD existing.date,
    accountId := req.accountId.getD existing.accountId,
    categoryId := match req.categoryId with
      | some c => some c
      | none => existing.categoryId }

/-- The destination-account check of PUT /:id: performed only when an
accountId is present in the payload and differs from the stored one. -/
def accountCheckOk (db : DB) (existing : Transaction) (newAccountId : Option Nat) : Bool :=
  match newAccountId with
  | some newAcc =>
    if newAcc != existing.accountId then (findActiveAccount db newAcc).isSome
    else true
  | none => true

/-- The revert block of PUT /:id: unless the original transaction is a
TRANSFER, add back `type === 'EXPENSE' ? amount : -amount` on the original
account; also carries the list of balance updates issued. -/
def revertStep (d : DB) (existing : Transaction) : DB × List (Nat × Rat) :=
  if !(existing.type == TxType.TRANSFER) then
    let originalChange :=
      if existing.type == TxType.EXPENSE then existing.amount else -existing.amount
    (updateBalance d existing.accountId originalChange,
      [(existing.accountId, originalChange)])
  else (d, [])

/-- The apply block of PUT /:id: unless the new type is TRANSFER, add
`newType === 'EXPENSE' ? -newAmount : newAmount` on the new account. -/
def applyStep (d : DB × List (Nat × Rat)) (newType : TxType) (newAmount : Rat)
    (newAccountId : Nat) : DB × List (Nat × Rat) :=
  if !(newType == TxType.TRANSFER) then
    let newChange := if newType == TxType.EXPENSE then -newAmount else newAmount
    (updateBalance d.1 newAccountId newChange, d.2 ++ [(newAccountId, newChange)])
  else d

/-- PUT /api/transactions/:id, success path.  Fetches the existing row,
checks the destination account only when the accountId is present and
different, rewrites the row, and — when any of amount/type/accountId is
present in the payload — reverts the original contribution on the original
account (unless the original type is TRANSFER) and applies the new
contribution on the (possibly different) new account (unless the new type
is TRANSFER). -/
def updateTransaction (db : DB) (txId : Nat) (req : UpdateTransactionInput) :
    Option (DB × List (Nat × Rat)) :=
  if req.amount.any (fun a => decide (a ≤ 0)) then none
  else match db.txs.find? (fun t => t.id == txId) with
    | none => none
    | some existing =>
      if !(accountCheckOk db existing req.accountId) then none
      else if !(categoryOk db req.categoryId) then none
      else
        let newTx := newTxOfUpdate existing req
        let db1 := { db with txs := db.txs.map (fun t => if t.id == txId then newTx else t) }
        if balanceTouched req then
          some (applyStep (revertStep db1 existing) (req.type.getD existing.type)
            (req.amount.getD existing.amount) (req.accountId.getD existing.accountId))
        else some (db1, [])

/-- DELETE /api/transactions/:id, success path.  Fetches the row, deletes
it, and — unless it is a TRANSFER — reverts its effect with the increment
`type === 'EXPENSE' ? amount : -amount`. -/
def deleteTransaction (db : DB) (txId : Nat) : Option (DB × List (Nat × Rat)) :=
  match db.txs.find? (fun t => t.id == txId) with
  | none => none
  | some tx =>
    let db1 := { db with txs := db.txs.filter (fun t => !(t.id == txId)) }
    if !(tx.type == .TRANSFER) then
      let change := if tx.type == .EXPENSE then tx.amount else -tx.amount
      some (updateBalance db1 tx.accountId change, [(tx.accountId, change)])
    else some (db1, [])

/-- One ledger mutation request arriving at the HTTP layer. -/
inductive Op where
  | create (req : CreateTransactionInput)
  | update (txId : Nat) (req : UpdateTransactionInput)
  | delete (txId : Nat)

/-- Run one operation on the store; an operation that is rejected
(validation / not-found) has no effect.  This is the behaviour of a run in
which every storage call that is reached completes without failure. -/
def applyOp (db : DB) (op : Op) : DB :=
  match op with
  | .create req => ((createTransaction db req).map Prod.fst).getD db
  | .update i req => ((updateTransaction db i req).map Prod.fst).getD db
  | .delete i => ((deleteTransaction db i).map Prod.fst).getD db

/-- Run a sequence of operations. -/
def applyOps (db : DB) (ops : List Op) : DB := ops.foldl applyOp db

/-- Outcome reported by a fallible handler run: created/ok, a 404, or the
catch-all 500. -/
inductive WriteResult where
  | ok
  | notFound
  | serverError
deriving DecidableEq

/-- Fallible embedding of POST /api/transactions.  `failCreate` makes the
`prisma.transaction.create` await throw, `failBalance` makes the
`prisma.account.update` await throw; either throw lands in the handler's
catch, which returns a 500 — there is no `$transaction` around the two
writes and no rollback, so a balance-update failure leaves the freshly
inserted transaction row in the store. -/
def createTransactionF (failCreate failBalance : Bool) (db : DB)
    (req : CreateTransactionInput) : DB × WriteResult :=
  if req.amount ≤ 0 then (db, .serverError)
  else match findActiveAccount db req.accountId with
    | none => (db, .notFound)
    | some account =>
      if !(categoryOk db req.categoryId) then (db, .notFound)
      else if failCreate then (db, .serverError)
      else
        let tx := newTxOfCreate db req account
        let db1 := { db with txs := db.txs ++ [tx], nextId := db.nextId + 1 }
        if req.type == .TRANSFER then (db1, .ok)
        else if failBalance then (db1, .serverError)
        else
          let change := if req.type == .EXPENSE then -req.amount else req.amount
          (updateBalance db1 req.accountId change, .ok)

/-- Embedding of `prisma.subscription.findMany` on `isActive: true` and
`nextBillingDate: { lte: now }`. -/
def dueSubscriptions (db : DB) (now : JsDate) : List Subscription :=
  db.subs.filter (fun s => s.isActive && dateLe s.nextBillingDate now)

/-- The EXPENSE transaction the scheduler writes for a due subscription:
amount and date come from the subscription, the currency from the looked-up
account, and the metadata links back to the subscription.  The description
is `name` plus ` - description` when the description is truthy (JS treats
the empty string as falsy). -/
def txOfSubscription (db : DB) (s : Subscription) (account : Account) : Transaction :=
  { id := db.nextId, amount := s.amount,
    description := some (s.name ++ (match s.description with
      | some d => if d = "" then "" else " - " ++ d
      | none => "")),
    type := .EXPENSE, date := s.nextBillingDate, currency := account.currency,
    accountId := s.accountId, categoryId := s.categoryId,
    metadata := some ⟨s.id, s.name, s.billingCycle⟩ }

/-- Advance of `nextBillingDate` in `processSubscriptions`: `setMonth(+1)`
for MONTHLY, `setFullYear(+1)` for YEARLY, computed from the subscription's
current `nextBillingDate`. -/
def advanceBilling : BillingCycle → JsDate → JsDate
  | .MONTHLY, d => addMonthJs d
  | .YEARLY, d => addYearJs d

/-- Which of the three storage awaits inside the scheduler's per-item try
block throw (transaction create, account balance update, subscription
update). -/
structure SubFail where
  failTx : Bool
  failBalance : Bool
  failSub : Bool
deriving DecidableEq

/-- No storage failure. -/
def noFail : SubFail := { failTx := false, failBalance := false, failSub := false }

/-- One iteration of the `for` loop in `processSubscriptions`, with each
storage await allowed to fail.  Returns the resulting store and whether an
error was logged for this item (missing account hits the `continue` branch;
a throw hits the per-item catch).  There is no per-item `$transaction`, so
a later failure keeps the earlier writes. -/
def processOneSubscriptionF (f : SubFail) (db : DB) (s : Subscription) : DB × Bool :=
  match db.accounts.find? (fun a => a.id == s.accountId) with
  | none => (db, true)
  | some account =>
    if f.failTx then (db, true)
    else
      let tx := txOfSubscription db s account
      let db1 := { db with txs := db.txs ++ [tx], nextId := db.nextId + 1 }
      if f.failBalance then (db1, true)
      else
        let db2 := updateBalance db1 s.accountId (-s.amount)
        if f.failSub then (db2, true)
        else
          let nbd := advanceBilling s.billingCycle s.nextBillingDate
          ({ db2 with subs := db2.subs.map (fun s2 =>
              if s2.id == s.id then { s2 with nextBillingDate := nbd } else s2) },
            false)

/-- One loop iteration on the success path. -/
def processOneSubscription (db : DB) (s : Subscription) : DB :=
  (processOneSubscriptionF noFail db s).1

/-- Embedding of `processSubscriptions` with a per-item failure schedule: the due list is
fetched once up front, each item is processed inside its own try/catch
(its error flag is logged and dropped), and the run itself always returns
normally. -/
def runBillingCycleF (fs : Subscription → SubFail) (db : DB) (now : JsDate) : DB :=
  (dueSubscriptions db now).foldl
    (fun acc s => (processOneSubscriptionF (fs s) acc s).1) db

/-- Embedding of `processSubscriptions` on the success path. -/
def runBillingCycle (db : DB) (now : JsDate) : DB :=
  runBillingCycleF (fun _ => noFail) db now

/-- Signed contribution of one stored transaction to the balance of account
`X` (zero when it references another account or is a TRANSFER). -/
def contribTo (X : Nat) (t : Transaction) : Rat :=
  if t.accountId == X && !(t.type == TxType.TRANSFER) then delta t.type t.amount else 0

/-- Sum of contributions of a list of transaction rows to account `X`. -/
def sumContrib (X : Nat) (l : List Transaction) : Rat := (l.map (contribTo X)).sum

/-- Sum of signed amounts of the currently stored INCOME/EXPENSE
transactions referencing account `X` — the aggregate the spec's invariant
compares the cached balance against. -/
def txSum (db : DB) (X : Nat) : Rat :=
  ((db.txs.filter (fun t => t.accountId == X && !(t.type == TxType.TRANSFER))).map
    (fun t => delta t.type t.amount)).sum

lemma txSum_eq_sumContrib (db : DB) (X : Nat) : txSum db X = sumContrib X db.txs := by
  show ((db.txs.filter _).map _).sum = _
  induction db.txs with
  | nil => rfl
  | cons t l ih =>
    cases hb : (t.accountId == X && !(t.type == TxType.TRANSFER)) with
    | true => simp [List.filter_cons, hb, sumContrib, contribTo, ih]
    | false => simp [List.filter_cons, hb, sumContrib, contribTo, ih]

lemma sumContrib_append (X : Nat) (l : List Transaction) (t : Transaction) :
    sumContrib X (l ++ [t]) = sumContrib X l + contribTo X t := by
  simp [sumContrib]

lemma sumContrib_replace (X i : Nat) (t0 t1 : Transaction) (l : List Transaction)
    (hfind : l.find? (fun t => t.id == i) = some t0)
    (hnodup : (l.map (fun t => t.id)).Nodup) :
    sumContrib X (l.map (fun t => if t.id == i then t1 else t))
      = sumContrib X l - contribTo X t0 + contribTo X t1 := by
  induction l with
  | nil => simp at hfind
  | cons h tl ih =>
    simp only [List.map_cons, List.nodup_cons] at hnodup
    cases hh : (h.id == i) with
    | true =>
      have hfh : (h :: tl).find? (fun t => t.id == i) = some h := by
        simp [List.find?_cons, hh]
      have ht0 : t0 = h := by
        rw [hfh] at hfind
        exact (Option.some.injEq _ _).mp hfind.symm
      have hid : h.id = i := by simpa using hh
      have htl : ∀ t ∈ tl, (t.id == i) = false := by
        intro t ht
        by_contra hti
        have h1 : t.id = i := by simpa using Bool.of_not_eq_false hti
        have h2 : t.id ∈ tl.map (fun t => t.id) := List.mem_map_of_mem (fun t => t.id) ht
        rw [h1, ← hid] at h2
        exact hnodup.1 h2
      have hmap : tl.map (fun t => if t.id == i then t1 else t) = tl := by
        have h3 := List.map_congr_left (l := tl)
          (f := fun t => if t.id == i then t1 else t) (g := id) (by
            intro t ht
            simp [htl t ht])
        simpa using h3
      rw [ht0, List.map_cons, if_pos hh, hmap]
      simp only [sumContrib, List.map_cons, List.sum_cons]
      ring
    | false =>
      have hfh : (h :: tl).find? (fun t => t.id == i) = tl.find? (fun t => t.id == i) := by
        simp [List.find?_cons, hh]
      rw [hfh] at hfind
      have h4 := ih hfind hnodup.2
      rw [List.map_cons, if_neg (by simp [hh])]
      simp only [sumContrib, List.map_cons, List.sum_cons]
      simp only [sumContrib] at h4
      rw [h4]
      ring

lemma sumContrib_erase (X i : Nat) (t0 : Transaction) (l : List Transaction)
    (hfind : l.find? (fun t => t.id == i) = some t0)
    (hnodup : (l.map (fun t => t.id)).Nodup) :
    sumContrib X (l.filter (fun t => !(t.id == i)))
      = sumContrib X l - contribTo X t0 := by
  induction l with
  | nil => simp at hfind
  | cons h tl ih =>
    simp only [List.map_cons, List.nodup_cons] at hnodup
    cases hh : (h.id == i) with
    | true =>
      have hfh : (h :: tl).find? (fun t => t.id == i) = some h := by
        simp [List.find?_cons, hh]
      have ht0 : t0 = h := by
        rw [hfh] at hfind
        exact (Option.some.injEq _ _).mp hfind.symm
      have hid : h.id = i := by simpa using hh
      have htl : ∀ t ∈ tl, (!(t.id == i)) = true := by
        intro t ht
        by_contra hti
        have h1 : t.id = i := by
          have h5 := Bool.of_not_eq_true hti
          simpa using h5
        have h2 : t.id ∈ tl.map (fun t => t.id) := List.mem_map_of_mem (fun t => t.id) ht
        rw [h1, ← hid] at h2
        exact hnodup.1 h2
      have hfil : tl.filter (fun t => !(t.id == i)) = tl := List.filter_eq_self.mpr htl
      rw [ht0, List.filter_cons, if_neg (by simp [hh]), hfil]
      simp only [sumContrib, List.map_cons, List.sum_cons]
      ring
    | false =>
      have hfh : (h :: tl).find? (fun t => t.id == i) = tl.find? (fun t => t.id == i) := by
        simp [List.find?_cons, hh]
      rw [hfh] at hfind
      have h4 := ih hfind hnodup.2
      rw [List.filter_cons, if_pos (by simp [hh])]
      simp only [sumContrib, List.map_cons, List.sum_cons]
      simp only [sumContrib] at h4
      rw [h4]
      ring

lemma adjust_idem_id (X : Nat) (d : Rat) (a : Account) : (adjust X d a).id = a.id := by
  unfold adjust
  split <;> rfl

lemma balanceOf_updateBalance (db : DB) (X : Nat) (d : Rat) (Y : Nat) :
    balanceOf (updateBalance db X d) Y
      = (balanceOf db Y).map (fun b => if Y = X then b + d else b) := by
  unfold balanceOf updateBalance
  show ((db.accounts.map (adjust X d)).find? _).map _ = _
  rw [List.find?_map]
  have hp : ((fun a : Account => a.id == Y) ∘ adjust X d) = (fun a : Account => a.id == Y) := by
    funext a
    show ((adjust X d a).id == Y) = (a.id == Y)
    rw [adjust_idem_id]
  rw [hp]
  cases hfind : db.accounts.find? (fun a => a.id == Y) with
  | none => simp
  | some a =>
    have ha : a.id = Y := by simpa using List.find?_some hfind
    by_cases hxy : Y = X <;> simp [adjust, ha, hxy]

lemma balanceOf_set_txs (db : DB) (txs : List Transaction) (n : Nat) (Y : Nat) :
    balanceOf { db with txs := txs, nextId := n } Y = balanceOf db Y := rfl

lemma option_map_congr {o : Option Rat} {f g : Rat → Rat} (h : ∀ b, f b = g b) :
    o.map f = o.map g := by
  cases o <;> simp [h]

lemma option_map_id (o : Option Rat) (f : Rat → Rat) (h : ∀ b, f b = b) :
    o.map f = o := by
  cases o <;> simp [h]

lemma change_eq_delta (ty : TxType) (a : Rat) (h : ty ≠ TxType.TRANSFER) :
    (if ty == TxType.EXPENSE then -a else a) = delta ty a := by
  cases ty <;> simp_all [delta]

lemma revert_eq_neg_delta (ty : TxType) (a : Rat) (h : ty ≠ TxType.TRANSFER) :
    (if ty == TxType.EXPENSE then a else -a) = -(delta ty a) := by
  cases ty <;> simp_all [delta]

lemma balanceOf_set_txs2 (db : DB) (txs : List Transaction) (Y : Nat) :
    balanceOf { db with txs := txs } Y = balanceOf db Y := rfl

lemma revertStep_txs (d : DB) (e : Transaction) : (revertStep d e).1.txs = d.txs := by
  unfold revertStep
  split <;> rfl

lemma revertStep_nextId (d : DB) (e : Transaction) : (revertStep d e).1.nextId = d.nextId := by
  unfold revertStep
  split <;> rfl

lemma revertStep_subs (d : DB) (e : Transaction) : (revertStep d e).1.subs = d.subs := by
  unfold revertStep
  split <;> rfl

lemma revertStep_categories (d : DB) (e : Transaction) :
    (revertStep d e).1.categories = d.categories := by
  unfold revertStep
  split <;> rfl

lemma balanceOf_revertStep (d : DB) (e : Transaction) (Y : Nat) :
    balanceOf (revertStep d e).1 Y = (balanceOf d Y).map
      (fun b => b + (if Y = e.accountId then -(delta e.type e.amount) else 0)) := by
  unfold revertStep
  split
  next hty =>
    have hty2 : e.type ≠ TxType.TRANSFER := by simpa using hty
    show balanceOf (updateBalance d e.accountId _) Y = _
    rw [balanceOf_updateBalance]
    refine option_map_congr ?_
    intro b
    by_cases hA : Y = e.accountId
    · rw [if_pos hA, if_pos hA, revert_eq_neg_delta _ _ hty2]
    · rw [if_neg hA, if_neg hA, add_zero]
  next hty =>
    have hty2 : e.type = TxType.TRANSFER := by
      revert hty
      cases h3 : (e.type == TxType.TRANSFER) <;> simp_all
    show balanceOf d Y = _
    refine (option_map_id _ _ ?_).symm
    intro b
    simp [hty2, delta]

lemma applyStep_txs (d : DB × List (Nat × Rat)) (ty : TxType) (amt : Rat) (acc : Nat) :
    (applyStep d ty amt acc).1.txs = d.1.txs := by
  unfold applyStep
  split <;> rfl

lemma applyStep_nextId (d : DB × List (Nat × Rat)) (ty : TxType) (amt : Rat) (acc : Nat) :
    (applyStep d ty amt acc).1.nextId = d.1.nextId := by
  unfold applyStep
  split <;> rfl

lemma applyStep_subs (d : DB × List (Nat × Rat)) (ty : TxType) (amt : Rat) (acc : Nat) :
    (applyStep d ty amt acc).1.subs = d.1.subs := by
  unfold applyStep
  split <;> rfl

lemma applyStep_categories (d : DB × List (Nat × Rat)) (ty : TxType) (amt : Rat) (acc : Nat) :
    (applyStep d ty amt acc).1.categories = d.1.categories := by
  unfold applyStep
  split <;> rfl

lemma balanceOf_applyStep (d : DB × List (Nat × Rat)) (ty : TxType) (amt : Rat)
    (acc : Nat) (Y : Nat) :
    balanceOf (applyStep d ty amt acc).1 Y = (balanceOf d.1 Y).map
      (fun b => b + (if Y = acc then delta ty amt else 0)) := by
  unfold applyStep
  split
  next hty =>
    have hty2 : ty ≠ TxType.TRANSFER := by simpa using hty
    show balanceOf (updateBalance d.1 acc _) Y = _
    rw [balanceOf_updateBalance]
    refine option_map_congr ?_
    intro b
    by_cases hA : Y = acc
    · rw [if_pos hA, if_pos hA, change_eq_delta _ _ hty2]
    · rw [if_neg hA, if_neg hA, add_zero]
  next hty =>
    have hty2 : ty = TxType.TRANSFER := by
      revert hty
      cases h3 : (ty == TxType.TRANSFER) <;> simp_all
    show balanceOf d.1 Y = _
    refine (option_map_id _ _ ?_).symm
    intro b
    simp [hty2, delta]

/-- Full characterization of a successful PUT /api/transactions/:id run:
the stored row is rewritten field-by-field, and when any of
amount/type/accountId is present in the payload the original contribution
is reverted on the original account and the new contribution applied on
the new account (a TRANSFER side contributing zero). -/
lemma updateTransaction_eq {db : DB} {i : Nat} {req : UpdateTransactionInput}
    {db' : DB} {u : List (Nat × Rat)} {existing : Transaction}
    (hfind : db.txs.find? (fun t => t.id == i) = some existing)
    (h : updateTransaction db i req = some (db', u)) :
    db'.txs = db.txs.map (fun t => if t.id == i then newTxOfUpdate existing req else t) ∧
    db'.nextId = db.nextId ∧ db'.subs = db.subs ∧ db'.categories = db.categories ∧
    (∀ Y, balanceOf db' Y = (balanceOf db Y).map (fun b =>
      if balanceTouched req then
        b + (if Y = existing.accountId then -(delta existing.type existing.amount) else 0)
          + (if Y = req.accountId.getD existing.accountId
             then delta (req.type.getD existing.type) (req.amount.getD existing.amount)
             else 0)
      else b)) := by
  unfold updateTransaction at h
  split at h
  · exact absurd h (by simp)
  next hamt =>
  split at h
  · exact absurd h (by simp)
  next existing' hfind' =>
  have hex : existing' = existing := by
    rw [hfind] at hfind'
    exact ((Option.some.injEq _ _).mp hfind').symm
  subst hex
  split at h
  · exact absurd h (by simp)
  next haccok =>
  split at h
  · exact absurd h (by simp)
  next hcat =>
  split at h
  next htouched =>
    injection h with hpair
    have h1 : _ = db' := congrArg Prod.fst hpair
    subst h1
    refine ⟨?_, ?_, ?_, ?_, ?_⟩
    · rw [applyStep_txs, revertStep_txs]
    · rw [applyStep_nextId, revertStep_nextId]
    · rw [applyStep_subs, revertStep_subs]
    · rw [applyStep_categories, revertStep_categories]
    · intro Y
      rw [balanceOf_applyStep, balanceOf_revertStep, balanceOf_set_txs2, Option.map_map]
      refine option_map_congr ?_
      intro b
      rw [if_pos htouched]
      rfl
  next htouched =>
    have htouched2 : balanceTouched req = false := by
      revert htouched
      cases h3 : balanceTouched req <;> simp_all
    injection h with hpair
    injection hpair with h1 h2
    subst h1
    refine ⟨rfl, rfl, rfl, rfl, ?_⟩
    intro Y
    rw [balanceOf_set_txs2]
    refine (option_map_id _ _ ?_).symm
    intro b
    rw [if_neg (by simp [htouched2])]

/-- Full characterization of a successful DELETE /api/transactions/:id run. -/
lemma deleteTransaction_eq {db : DB} {i : Nat} {db' : DB} {u : List (Nat × Rat)}
    {tx : Transaction} (hfind : db.txs.find? (fun t => t.id == i) = some tx)
    (h : deleteTransaction db i = some (db', u)) :
    db'.txs = db.txs.filter (fun t => !(t.id == i)) ∧
    db'.nextId = db.nextId ∧ db'.subs = db.subs ∧ db'.categories = db.categories ∧
    (∀ Y, balanceOf db' Y = (balanceOf db Y).map
      (fun b => b + (if Y = tx.accountId then -(delta tx.type tx.amount) else 0))) ∧
    u = (if tx.type = TxType.TRANSFER then []
         else [(tx.accountId, -(delta tx.type tx.amount))]) := by
  unfold deleteTransaction at h
  split at h
  · exact absurd h (by simp)
  next tx' hfind' =>
  have hex : tx' = tx := by
    rw [hfind] at hfind'
    exact ((Option.some.injEq _ _).mp hfind').symm
  subst hex
  split at h
  next hty =>
    have hty2 : tx'.type ≠ TxType.TRANSFER := by simpa using hty
    injection h with hpair
    injection hpair with h1 h2
    subst h1
    subst h2
    refine ⟨rfl, rfl, rfl, rfl, ?_, ?_⟩
    · intro Y
      rw [balanceOf_updateBalance, balanceOf_set_txs2]
      refine option_map_congr ?_
      intro b
      by_cases hy : Y = tx'.accountId
      · rw [if_pos hy, if_pos hy, revert_eq_neg_delta _ _ hty2]
      · rw [if_neg hy, if_neg hy, add_zero]
    · rw [if_neg hty2, revert_eq_neg_delta _ _ hty2]
  next hty =>
    have hty2 : tx'.type = TxType.TRANSFER := by
      revert hty
      cases h3 : (tx'.type == TxType.TRANSFER) <;> simp_all
    injection h with hpair
    injection hpair with h1 h2
    subst h1
    subst h2
    refine ⟨rfl, rfl, rfl, rfl, ?_, ?_⟩
    · intro Y
      rw [balanceOf_set_txs2]
      refine (option_map_id _ _ ?_).symm
      intro b
      simp [hty2, delta]
    · rw [if_pos hty2]

lemma contribTo_mk (X : Nat) (t : Transaction) :
    contribTo X t = if X = t.accountId then delta t.type t.amount else 0 := by
  unfold contribTo
  by_cases h1 : t.accountId = X
  · by_cases h2 : t.type = TxType.TRANSFER
    · simp [h1, h2, delta]
    · simp [h1, h2]
  · have h3 : ¬(X = t.accountId) := fun hc => h1 hc.symm
    simp [h1, h3]

lemma balanceTouched_false {req : UpdateTransactionInput}
    (h : balanceTouched req = false) :
    req.amount = none ∧ req.type = none ∧ req.accountId = none := by
  cases ha : req.amount <;> cases ht : req.type <;> cases hc : req.accountId <;>
    simp_all [balanceTouched]

/-- Full characterization of a successful POST /api/transactions run. -/
lemma createTransaction_eq {db : DB} {req : CreateTransactionInput} {db' : DB}
    {u : List (Nat × Rat)} (h : createTransaction db req = some (db', u)) :
    ∃ account, findActiveAccount db req.accountId = some account ∧
      0 < req.amount ∧ categoryOk db req.categoryId = true ∧
      db'.txs = db.txs ++ [newTxOfCreate db req account] ∧
      db'.nextId = db.nextId + 1 ∧ db'.subs = db.subs ∧
      db'.categories = db.categories ∧
      (∀ Y, balanceOf db' Y = (balanceOf db Y).map
        (fun b => b + (if Y = req.accountId then delta req.type req.amount else 0))) ∧
      u = (if req.type = TxType.TRANSFER then []
           else [(req.accountId, delta req.type req.amount)]) := by
  unfold createTransaction at h
  split at h
  · exact absurd h (by simp)
  next hamt =>
  split at h
  · exact absurd h (by simp)
  next account hacc =>
  split at h
  · exact absurd h (by simp)
  next hcat =>
  have hcat2 : categoryOk db req.categoryId = true := by
    revert hcat
    cases categoryOk db req.categoryId <;> simp
  refine ⟨account, hacc, lt_of_not_le hamt, hcat2, ?_⟩
  split at h
  next hty =>
    have hty2 : req.type = TxType.TRANSFER := by simpa using hty
    injection h with hpair
    injection hpair with h1 h2
    subst h1
    subst h2
    refine ⟨rfl, rfl, rfl, rfl, ?_, ?_⟩
    · intro Y
      rw [balanceOf_set_txs]
      refine (option_map_id _ _ ?_).symm
      intro b
      simp [hty2, delta]
    · rw [if_pos hty2]
  next hty =>
    have hty2 : req.type ≠ TxType.TRANSFER := by simpa using hty
    injection h with hpair
    injection hpair with h1 h2
    subst h1
    subst h2
    refine ⟨rfl, rfl, rfl, rfl, ?_, ?_⟩
    · intro Y
      rw [balanceOf_updateBalance, balanceOf_set_txs]
      refine option_map_congr ?_
      intro b
      by_cases hy : Y = req.accountId
      · rw [if_pos hy, if_pos hy, change_eq_delta _ _ hty2]
      · rw [if_neg hy, if_neg hy, add_zero]
    · rw [if_neg hty2, change_eq_delta _ _ hty2]

lemma updateTransaction_find {db : DB} {i : Nat} {req : UpdateTransactionInput}
    {p : DB × List (Nat × Rat)} (h : updateTransaction db i req = some p) :
    ∃ existing, db.txs.find? (fun t => t.id == i) = some existing := by
  unfold updateTransaction at h
  split at h
  · exact absurd h (by simp)
  split at h
  · exact absurd h (by simp)
  next existing hfind => exact ⟨existing, hfind⟩

lemma deleteTransaction_find {db : DB} {i : Nat}
    {p : DB × List (Nat × Rat)} (h : deleteTransaction db i = some p) :
    ∃ tx, db.txs.find? (fun t => t.id == i) = some tx := by
  unfold deleteTransaction at h
  split at h
  · exact absurd h (by simp)
  next tx hfind => exact ⟨tx, hfind⟩

/-- The ledger invariant the spec demands: every cached account balance
equals the sum of signed amounts of the stored INCOME/EXPENSE transactions
referencing that account.  The remaining clauses state that the id counter
(standing in for cuid generation) dominates every stored transaction id,
and that stored transaction ids are pairwise distinct. -/
def LedgerInv (db : DB) : Prop :=
  (∀ X b, balanceOf db X = some b → b = txSum db X)
  ∧ (∀ t ∈ db.txs, t.id < db.nextId)
  ∧ (db.txs.map (fun t => t.id)).Nodup

lemma inv_create {db : DB} {req : CreateTransactionInput} {db' : DB}
    {u : List (Nat × Rat)} (hInv : LedgerInv db)
    (h : createTransaction db req = some (db', u)) : LedgerInv db' := by
  obtain ⟨hbal, hbound, hnodup⟩ := hInv
  obtain ⟨account, hacc, hpos, hcat, htxs, hnext, hsubs, hcats, hbalOf, hu⟩ :=
    createTransaction_eq h
  refine ⟨?_, ?_, ?_⟩
  · intro X b hb
    rw [hbalOf X] at hb
    cases hob : balanceOf db X with
    | none => rw [hob] at hb; simp at hb
    | some b0 =>
      rw [hob] at hb
      simp only [Option.map_some', Option.some.injEq] at hb
      have hb0 := hbal X b0 hob
      have hsum : txSum db' X = txSum db X + contribTo X (newTxOfCreate db req account) := by
        rw [txSum_eq_sumContrib, txSum_eq_sumContrib, htxs, sumContrib_append]
      have hcontrib : contribTo X (newTxOfCreate db req account)
          = if X = req.accountId then delta req.type req.amount else 0 := by
        rw [contribTo_mk]
        rfl
      rw [hsum, hcontrib, ← hb, hb0]
  · intro t ht
    rw [htxs] at ht
    rw [hnext]
    rcases List.mem_append.mp ht with h1 | h1
    · exact Nat.lt_succ_of_lt (hbound t h1)
    · have h2 : t = newTxOfCreate db req account := by simpa using h1
      rw [h2]
      exact Nat.lt_succ_self _
  · rw [htxs]
    rw [List.map_append]
    rw [List.nodup_append]
    refine ⟨hnodup, by simp, ?_⟩
    intro x hx
    have h3 : x < db.nextId := by
      obtain ⟨t, ht, hid⟩ := List.mem_map.mp hx
      rw [← hid]
      exact hbound t ht
    simp only [List.map_cons, List.map_nil, List.mem_singleton]
    intro hc
    rw [show x = db.nextId from hc] at h3
    exact lt_irrefl _ h3

lemma ids_map_replace {i : Nat} {t1 : Transaction} (l : List Transaction)
    (ht1 : t1.id = i) :
    (l.map (fun t => if t.id == i then t1 else t)).map (fun t => t.id)
      = l.map (fun t => t.id) := by
  rw [List.map_map]
  refine List.map_congr_left ?_
  intro t _
  show (if t.id == i then t1 else t).id = t.id
  by_cases h : t.id = i
  · rw [if_pos (by simp [h]), ht1, h]
  · rw [if_neg (by simp [h])]

lemma inv_update {db : DB} {i : Nat} {req : UpdateTransactionInput} {db' : DB}
    {u : List (Nat × Rat)} (hInv : LedgerInv db)
    (h : updateTransaction db i req = some (db', u)) : LedgerInv db' := by
  obtain ⟨hbal, hbound, hnodup⟩ := hInv
  obtain ⟨existing, hfind⟩ := updateTransaction_find h
  obtain ⟨htxs, hnext, hsubs, hcats, hbalOf⟩ := updateTransaction_eq hfind h
  have hexid : existing.id = i := by simpa using List.find?_some hfind
  have hnewid : (newTxOfUpdate existing req).id = i := hexid
  refine ⟨?_, ?_, ?_⟩
  · intro X b hb
    rw [hbalOf X] at hb
    cases hob : balanceOf db X with
    | none => rw [hob] at hb; simp at hb
    | some b0 =>
      rw [hob] at hb
      simp only [Option.map_some', Option.some.injEq] at hb
      have hb0 := hbal X b0 hob
      have hsum : txSum db' X = txSum db X - contribTo X existing
          + contribTo X (newTxOfUpdate existing req) := by
        rw [txSum_eq_sumContrib, txSum_eq_sumContrib, htxs]
        exact sumContrib_replace X i existing _ db.txs hfind hnodup
      rw [hsum, ← hb, hb0]
      by_cases htouched : balanceTouched req = true
      case neg =>
        have htouched2 : balanceTouched req = false := by
          revert htouched
          cases h3 : balanceTouched req <;> simp_all
        obtain ⟨ha, ht, hc⟩ := balanceTouched_false htouched2
        have hcontrib : contribTo X (newTxOfUpdate existing req) = contribTo X existing := by
          rw [contribTo_mk, contribTo_mk]
          unfold newTxOfUpdate
          rw [ha, ht, hc]
          rfl
        rw [if_neg htouched, hcontrib]
        ring
      case pos =>
        rw [if_pos htouched]
        have hc1 : contribTo X existing
            = if X = existing.accountId then delta existing.type existing.amount else 0 :=
          contribTo_mk X existing
        have hc2 : contribTo X (newTxOfUpdate existing req)
            = if X = req.accountId.getD existing.accountId
              then delta (req.type.getD existing.type) (req.amount.getD existing.amount)
              else 0 := by
          rw [contribTo_mk]
          rfl
        rw [hc1, hc2]
        split_ifs <;> ring
  · intro t ht
    rw [htxs] at ht
    rw [hnext]
    obtain ⟨t0, ht0, hrepl⟩ := List.mem_map.mp ht
    by_cases h0 : t0.id = i
    · rw [if_pos (by simp [h0])] at hrepl
      rw [← hrepl, hnewid, ← h0]
      exact hbound t0 ht0
    · rw [if_neg (by simp [h0])] at hrepl
      rw [← hrepl]
      exact hbound t0 ht0
  · rw [htxs, ids_map_replace db.txs hnewid]
    exact hnodup

lemma inv_delete {db : DB} {i : Nat} {db' : DB}
    {u : List (Nat × Rat)} (hInv : LedgerInv db)
    (h : deleteTransaction db i = some (db', u)) : LedgerInv db' := by
  obtain ⟨hbal, hbound, hnodup⟩ := hInv
  obtain ⟨tx, hfind⟩ := deleteTransaction_find h
  obtain ⟨htxs, hnext, hsubs, hcats, hbalOf, hu⟩ := deleteTransaction_eq hfind h
  refine ⟨?_, ?_, ?_⟩
  · intro X b hb
    rw [hbalOf X] at hb
    cases hob : balanceOf db X with
    | none => rw [hob] at hb; simp at hb
    | some b0 =>
      rw [hob] at hb
      simp only [Option.map_some', Option.some.injEq] at hb
      have hb0 := hbal X b0 hob
      have hsum : txSum db' X = txSum db X - contribTo X tx := by
        rw [txSum_eq_sumContrib, txSum_eq_sumContrib, htxs]
        exact sumContrib_erase X i tx db.txs hfind hnodup
      rw [hsum, ← hb, hb0, contribTo_mk]
      by_cases hA : X = tx.accountId
      · simp [hA]
        ring
      · simp [hA]
  · intro t ht
    rw [htxs] at ht
    rw [hnext]
    exact hbound t (List.mem_of_mem_filter ht)
  · rw [htxs]
    exact hnodup.sublist ((List.filter_sublist db.txs).map (fun t => t.id))

lemma inv_applyOp (db : DB) (op : Op) (hInv : LedgerInv db) : LedgerInv (applyOp db op) := by
  cases op with
  | create req =>
    simp only [applyOp]
    cases h : createTransaction db req with
    | none => simpa using hInv
    | some p =>
      obtain ⟨db', u⟩ := p
      simpa using inv_create hInv h
  | update i req =>
    simp only [applyOp]
    cases h : updateTransaction db i req with
    | none => simpa using hInv
    | some p =>
      obtain ⟨db', u⟩ := p
      simpa using inv_update hInv h
  | delete i =>
    simp only [applyOp]
    cases h : deleteTransaction db i with
    | none => simpa using hInv
    | some p =>
      obtain ⟨db', u⟩ := p
      simpa using inv_delete hInv h

lemma inv_applyOps (db : DB) (ops : List Op) (hInv : LedgerInv db) : LedgerInv (applyOps db ops) := by
  induction ops generalizing db with
  | nil => exact hInv
  | cons op ops ih => exact ih _ (inv_applyOp db op hInv)

/-- C1: for every sequence of create/update/delete transaction operations
(each completed operation modelled by `applyOp`; a rejected operation has
no effect) applied to a store satisfying the ledger invariant, every
account's cached balance equals the sum of signed amounts (+amount for
INCOME, −amount for EXPENSE) of the currently stored INCOME/EXPENSE
transactions referencing it. -/
theorem c1_balance_invariant (db0 : DB) (ops : List Op) (h0 : LedgerInv db0) :
    ∀ A b, balanceOf (applyOps db0 ops) A = some b → b = txSum (applyOps db0 ops) A :=
  (inv_applyOps db0 ops h0).1

/-- An initial store: one active USD account with balance 0, no
transactions, no subscriptions. -/
def dbW : DB :=
  { accounts := [{ id := 1, balance := 0, currency := "USD", isActive := true }],
    categories := [], txs := [], subs := [], nextId := 10 }

lemma dbW_inv : LedgerInv dbW := by
  refine ⟨?_, by simp [dbW], by simp [dbW]⟩
  intro X b hb
  have hts : txSum dbW X = 0 := rfl
  rw [hts]
  unfold balanceOf at hb
  cases hf : dbW.accounts.find? (fun a => a.id == X) with
  | none => rw [hf] at hb; simp at hb
  | some a =>
    rw [hf] at hb
    have hmem := List.mem_of_find?_eq_some hf
    have ha : a = { id := 1, balance := 0, currency := "USD", isActive := true } := by
      simpa [dbW] using hmem
    rw [ha] at hb
    simp at hb
    rw [← hb]

/-- Request: EXPENSE of 50 on account 1. -/
def reqExpense50 : CreateTransactionInput :=
  { amount := 50, description := none, type := TxType.EXPENSE,
    date := ⟨2024, 1, 1⟩, accountId := 1, categoryId := none }

/-- Request: INCOME of 100 on account 1. -/
def reqIncome100 : CreateTransactionInput :=
  { amount := 100, description := none, type := TxType.INCOME,
    date := ⟨2024, 1, 2⟩, accountId := 1, categoryId := none }

/-- Request: change the amount to 30, touching nothing else. -/
def reqAmount30 : UpdateTransactionInput :=
  { amount := some 30, description := none, type := none,
    date := none, accountId := none, categoryId := none }

/-- A concrete operation sequence: create EXPENSE 50, change its amount to
30, create INCOME 100, delete the expense. -/
def opsW : List Op :=
  [Op.create reqExpense50, Op.update 10 reqAmount30,
    Op.create reqIncome100, Op.delete 10]

theorem c1_balance_invariant_witness : (100 : Rat) = txSum (applyOps dbW opsW) 1 :=
  c1_balance_invariant dbW opsW dbW_inv 1 100 (by
    norm_num +decide [balanceOf, applyOps, applyOp, createTransaction, updateTransaction,
      deleteTransaction, findActiveAccount, categoryOk, newTxOfCreate, newTxOfUpdate,
      balanceTouched, accountCheckOk, revertStep, applyStep, updateBalance, adjust,
      List.find?, List.filter, dbW, opsW, reqExpense50, reqIncome100, reqAmount30])

/-- C2: a successful transaction creation changes the owning account's
balance by exactly delta(type, amount) — +amount for INCOME, −amount for
EXPENSE, 0 for TRANSFER — and issues exactly one balance update, none when
the type is TRANSFER. -/
theorem c2_create_delta {db : DB} {req : CreateTransactionInput} {db' : DB}
    {u : List (Nat × Rat)} (h : createTransaction db req = some (db', u)) :
    (∀ Y, balanceOf db' Y = (balanceOf db Y).map
      (fun b => b + (if Y = req.accountId then delta req.type req.amount else 0)))
    ∧ u = (if req.type = TxType.TRANSFER then []
           else [(req.accountId, delta req.type req.amount)])
    ∧ u.length = (if req.type = TxType.TRANSFER then 0 else 1) := by
  obtain ⟨account, hacc, hpos, hcat, htxs, hnext, hsubs, hcats, hbalOf, hu⟩ :=
    createTransaction_eq h
  refine ⟨hbalOf, hu, ?_⟩
  rw [hu]
  by_cases hty : req.type = TxType.TRANSFER
  · rw [if_pos hty, if_pos hty]
    rfl
  · rw [if_neg hty, if_neg hty]
    rfl

/-- The store after creating the 50 EXPENSE of `reqExpense50` in `dbW`. -/
def dbAfterExpense : DB :=
  { accounts := [{ id := 1, balance := -50, currency := "USD", isActive := true }],
    categories := [],
    txs := [⟨10, 50, none, TxType.EXPENSE, ⟨2024, 1, 1⟩, "USD", 1, none, none⟩],
    subs := [], nextId := 11 }

theorem c2_create_delta_witness :
    balanceOf dbAfterExpense 1 = (balanceOf dbW 1).map
      (fun b => b + (if 1 = reqExpense50.accountId
                     then delta reqExpense50.type reqExpense50.amount else 0)) := by
  have h : createTransaction dbW reqExpense50 = some (dbAfterExpense, [(1, -50)]) := by
    norm_num +decide [createTransaction, findActiveAccount, categoryOk, newTxOfCreate,
      updateBalance, adjust, List.find?, dbW, dbAfterExpense, reqExpense50]
  exact (c2_create_delta h).1 1

/-- C3: for a successful update of an existing transaction, if none of
amount, type, or account changed then no account balance changes;
otherwise −delta(oldTx) is added to the old account's balance and
delta(newTx) to the new account's balance, both steps executing even when
the accounts differ (so a move from A to B fully reverts A and applies the
new contribution to B). -/
theorem c3_update_balance {db : DB} {i : Nat} {req : UpdateTransactionInput}
    {db' : DB} {u : List (Nat × Rat)} {existing : Transaction}
    (hfind : db.txs.find? (fun t => t.id == i) = some existing)
    (h : updateTransaction db i req = some (db', u)) :
    ((req.amount.getD existing.amount = existing.amount ∧
      req.type.getD existing.type = existing.type ∧
      req.accountId.getD existing.accountId = existing.accountId) →
      ∀ Y, balanceOf db' Y = balanceOf db Y)
    ∧ (¬(req.amount.getD existing.amount = existing.amount ∧
        req.type.getD existing.type = existing.type ∧
        req.accountId.getD existing.accountId = existing.accountId) →
      ∀ Y, balanceOf db' Y = (balanceOf db Y).map (fun b =>
        b + (if Y = existing.accountId then -(delta existing.type existing.amount) else 0)
          + (if Y = req.accountId.getD existing.accountId
             then delta (req.type.getD existing.type) (req.amount.getD existing.amount)
             else 0))) := by
  obtain ⟨htxs, hnext, hsubs, hcats, hbalOf⟩ := updateTransaction_eq hfind h
  constructor
  · intro hunch Y
    obtain ⟨e1, e2, e3⟩ := hunch
    rw [hbalOf Y]
    refine option_map_id _ _ ?_
    intro b
    by_cases htch : balanceTouched req = true
    · rw [if_pos htch, e1, e2, e3]
      by_cases hA : Y = existing.accountId
      · rw [if_pos hA, if_pos hA]
        ring
      · rw [if_neg hA, if_neg hA]
        ring
    · rw [if_neg htch]
  · intro hch Y
    have htch : balanceTouched req = true := by
      by_contra hc
      have h2 : balanceTouched req = false := by
        revert hc
        cases h3 : balanceTouched req <;> simp_all
      obtain ⟨ha, ht, hcid⟩ := balanceTouched_false h2
      refine hch ?_
      rw [ha, ht, hcid]
      exact ⟨rfl, rfl, rfl⟩
    rw [hbalOf Y]
    refine option_map_congr ?_
    intro b
    rw [if_pos htch]

/-- A store with two active accounts and one stored EXPENSE of 50 against
account 1. -/
def dbTwo : DB :=
  { accounts := [{ id := 1, balance := -50, currency := "USD", isActive := true },
      { id := 2, balance := 0, currency := "ARS", isActive := true }],
    categories := [],
    txs := [⟨10, 50, none, TxType.EXPENSE, ⟨2024, 1, 1⟩, "USD", 1, none, none⟩],
    subs := [], nextId := 11 }

/-- The stored EXPENSE row of `dbTwo`. -/
def txExp50 : Transaction := ⟨10, 50, none, TxType.EXPENSE, ⟨2024, 1, 1⟩, "USD", 1, none, none⟩

/-- Update request: move the transaction to account 2. -/
def reqMove : UpdateTransactionInput :=
  { amount := none, description := none, type := none,
    date := none, accountId := some 2, categoryId := none }

/-- Store `dbTwo` after moving the expense to account 2: account 1 fully
reverted, account 2 carrying the expense. -/
def dbMoved : DB :=
  { accounts := [{ id := 1, balance := 0, currency := "USD", isActive := true },
      { id := 2, balance := -50, currency := "ARS", isActive := true }],
    categories := [],
    txs := [⟨10, 50, none, TxType.EXPENSE, ⟨2024, 1, 1⟩, "USD", 2, none, none⟩],
    subs := [], nextId := 11 }

theorem c3_update_balance_witness :
    balanceOf dbMoved 2 = (balanceOf dbTwo 2).map (fun b =>
      b + (if 2 = txExp50.accountId then -(delta txExp50.type txExp50.amount) else 0)
        + (if 2 = reqMove.accountId.getD txExp50.accountId
           then delta (reqMove.type.getD txExp50.type) (reqMove.amount.getD txExp50.amount)
           else 0)) := by
  have hfind : dbTwo.txs.find? (fun t => t.id == 10) = some txExp50 := by
    norm_num +decide [List.find?, dbTwo, txExp50]
  have h : updateTransaction dbTwo 10 reqMove = some (dbMoved, [(1, 50), (2, -50)]) := by
    norm_num +decide [updateTransaction, accountCheckOk, findActiveAccount, categoryOk,
      newTxOfUpdate, balanceTouched, revertStep, applyStep, updateBalance, adjust,
      List.find?, dbTwo, dbMoved, reqMove]
  refine (c3_update_balance hfind h).2 ?_ 2
  norm_num [reqMove, txExp50]

lemma find?_append_singleton {p : Transaction → Bool} {l : List Transaction}
    {x : Transaction} (hl : ∀ t ∈ l, p t = false) (hx : p x = true) :
    (l ++ [x]).find? p = some x := by
  induction l with
  | nil => simp [List.find?_cons, hx]
  | cons h tl ih =>
    have hh := hl h (by simp)
    simp only [List.cons_append, List.find?_cons, hh]
    exact ih (fun t ht => hl t (by simp [ht]))

/-- C4: deleting a transaction adds −delta(type, amount) to its account's
balance, and deletion is the exact inverse of creation: creating a
transaction and then deleting it leaves every account balance unchanged. -/
theorem c4_delete_inverse (db : DB) :
    (∀ i db' u tx, db.txs.find? (fun t => t.id == i) = some tx →
      deleteTransaction db i = some (db', u) →
      ∀ Y, balanceOf db' Y = (balanceOf db Y).map
        (fun b => b + (if Y = tx.accountId then -(delta tx.type tx.amount) else 0)))
    ∧ (∀ req db1 u1, (∀ t ∈ db.txs, t.id < db.nextId) →
      createTransaction db req = some (db1, u1) →
      ∃ db2 u2, deleteTransaction db1 db.nextId = some (db2, u2) ∧
        ∀ Y, balanceOf db2 Y = balanceOf db Y) := by
  constructor
  · intro i db' u tx hfind h
    exact (deleteTransaction_eq hfind h).2.2.2.2.1
  · intro req db1 u1 hfresh h
    obtain ⟨account, hacc, hpos, hcat, htxs, hnext, hsubs, hcats, hbalOf, hu⟩ :=
      createTransaction_eq h
    have hfind1 : db1.txs.find? (fun t => t.id == db.nextId)
        = some (newTxOfCreate db req account) := by
      rw [htxs]
      refine find?_append_singleton ?_ (by simp [newTxOfCreate])
      intro t ht
      have h5 := hfresh t ht
      simp only [beq_eq_false_iff_ne]
      omega
    have hsucc : ∃ p, deleteTransaction db1 db.nextId = some p := by
      unfold deleteTransaction
      rw [hfind1]
      dsimp only
      cases hty : (!((newTxOfCreate db req account).type == TxType.TRANSFER)) with
      | true => exact ⟨_, by rw [if_pos rfl]⟩
      | false => exact ⟨_, by rw [if_neg (by simp)]⟩
    obtain ⟨⟨db2, u2⟩, hdel⟩ := hsucc
    refine ⟨db2, u2, hdel, ?_⟩
    intro Y
    have hdeleq := (deleteTransaction_eq hfind1 hdel).2.2.2.2.1
    rw [hdeleq Y, hbalOf Y, Option.map_map]
    refine option_map_id _ _ ?_
    intro b
    show b + _ + _ = b
    simp only [newTxOfCreate]
    by_cases hA : Y = req.accountId
    · rw [if_pos hA, if_pos hA]
      ring
    · rw [if_neg hA, if_neg hA]
      ring

/-- The store after deleting the expense again: balance back to 0. -/
def dbAfterDelete : DB :=
  { accounts := [{ id := 1, balance := 0, currency := "USD", isActive := true }],
    categories := [], txs := [], subs := [], nextId := 11 }

theorem c4_delete_inverse_witness :
    balanceOf dbAfterDelete 1 = (balanceOf dbAfterExpense 1).map
      (fun b => b + (if 1 = txExp50.accountId
                     then -(delta txExp50.type txExp50.amount) else 0)) := by
  have hfind : dbAfterExpense.txs.find? (fun t => t.id == 10) = some txExp50 := by
    norm_num +decide [List.find?, dbAfterExpense, txExp50]
  have h : deleteTransaction dbAfterExpense 10 = some (dbAfterDelete, [(1, 50)]) := by
    norm_num +decide [deleteTransaction, updateBalance, adjust, List.find?, List.filter,
      dbAfterExpense, dbAfterDelete, txExp50]
  exact (c4_delete_inverse dbAfterExpense).1 10 dbAfterDelete [(1, 50)] txExp50 hfind h 1

/-- C5: TRANSFER-type transactions have no balance effect under any
operation: creating a TRANSFER changes no balance and issues no balance
update, deleting a TRANSFER changes no balance and issues no balance
update, and in an update the TRANSFER side contributes nothing (updating a
transaction whose original type is TRANSFER performs no revert; updating
to type TRANSFER applies no new contribution). -/
theorem c5_transfer_no_effect :
    (∀ db req db' u, req.type = TxType.TRANSFER →
      createTransaction db req = some (db', u) →
      (∀ Y, balanceOf db' Y = balanceOf db Y) ∧ u = [])
    ∧ (∀ db i db' u tx, db.txs.find? (fun t => t.id == i) = some tx →
      tx.type = TxType.TRANSFER → deleteTransaction db i = some (db', u) →
      (∀ Y, balanceOf db' Y = balanceOf db Y) ∧ u = [])
    ∧ (∀ db i req db' u existing, db.txs.find? (fun t => t.id == i) = some existing →
      existing.type = TxType.TRANSFER → updateTransaction db i req = some (db', u) →
      ∀ Y, balanceOf db' Y = (balanceOf db Y).map (fun b =>
        if balanceTouched req then
          b + (if Y = req.accountId.getD existing.accountId
               then delta (req.type.getD existing.type) (req.amount.getD existing.amount)
               else 0)
        else b))
    ∧ (∀ db i req db' u existing, db.txs.find? (fun t => t.id == i) = some existing →
      req.type.getD existing.type = TxType.TRANSFER →
      updateTransaction db i req = some (db', u) →
      ∀ Y, balanceOf db' Y = (balanceOf db Y).map (fun b =>
        if balanceTouched req then
          b + (if Y = existing.accountId then -(delta existing.type existing.amount) else 0)
        else b)) := by
  refine ⟨?_, ?_, ?_, ?_⟩
  · intro db req db' u hty h
    obtain ⟨account, hacc, hpos, hcat, htxs, hnext, hsubs, hcats, hbalOf, hu⟩ :=
      createTransaction_eq h
    refine ⟨?_, by rw [hu, if_pos hty]⟩
    intro Y
    rw [hbalOf Y]
    refine option_map_id _ _ ?_
    intro b
    by_cases hA : Y = req.accountId
    · rw [if_pos hA, hty]
      show b + 0 = b
      ring
    · rw [if_neg hA]
      ring
  · intro db i db' u tx hfind hty h
    obtain ⟨htxs, hnext, hsubs, hcats, hbalOf, hu⟩ := deleteTransaction_eq hfind h
    refine ⟨?_, by rw [hu, if_pos hty]⟩
    intro Y
    rw [hbalOf Y]
    refine option_map_id _ _ ?_
    intro b
    by_cases hA : Y = tx.accountId
    · rw [if_pos hA, hty]
      show b + -(0 : Rat) = b
      ring
    · rw [if_neg hA]
      ring
  · intro db i req db' u existing hfind hty h
    obtain ⟨htxs, hnext, hsubs, hcats, hbalOf⟩ := updateTransaction_eq hfind h
    intro Y
    rw [hbalOf Y]
    refine option_map_congr ?_
    intro b
    by_cases htch : balanceTouched req = true
    · rw [if_pos htch, if_pos htch]
      by_cases hA : Y = existing.accountId
      · rw [if_pos hA, hty]
        show b + -(0 : Rat) + _ = b + _
        ring
      · rw [if_neg hA]
        ring
    · rw [if_neg htch, if_neg htch]
  · intro db i req db' u existing hfind hty h
    obtain ⟨htxs, hnext, hsubs, hcats, hbalOf⟩ := updateTransaction_eq hfind h
    intro Y
    rw [hbalOf Y]
    refine option_map_congr ?_
    intro b
    by_cases htch : balanceTouched req = true
    · rw [if_pos htch, if_pos htch]
      by_cases hB : Y = req.accountId.getD existing.accountId
      · rw [if_pos hB, hty]
        show b + _ + (0 : Rat) = b + _
        ring
      · rw [if_neg hB]
        ring
    · rw [if_neg htch, if_neg htch]

/-- Request: TRANSFER of 25 on account 1. -/
def reqTransfer : CreateTransactionInput :=
  { amount := 25, description := none, type := TxType.TRANSFER,
    date := ⟨2024, 1, 3⟩, accountId := 1, categoryId := none }

/-- Store `dbW` after creating the TRANSFER: the row is stored but no balance
moves. -/
def dbAfterTransfer : DB :=
  { accounts := [{ id := 1, balance := 0, currency := "USD", isActive := true }],
    categories := [],
    txs := [⟨10, 25, none, TxType.TRANSFER, ⟨2024, 1, 3⟩, "USD", 1, none, none⟩],
    subs := [], nextId := 11 }

theorem c5_transfer_no_effect_witness :
    balanceOf dbAfterTransfer 1 = balanceOf dbW 1 := by
  have h : createTransaction dbW reqTransfer = some (dbAfterTransfer, []) := by
    norm_num +decide [createTransaction, findActiveAccount, categoryOk, newTxOfCreate,
      List.find?, dbW, dbAfterTransfer, reqTransfer]
  exact (c5_transfer_no_effect.1 dbW reqTransfer dbAfterTransfer [] rfl h).1 1

/-- C6 counterexample: the transaction-write-plus-balance-adjustment pair
is not atomic.  The claim implies that whenever a step of the unit fails
(a 500 outcome), the store is rolled back to its pre-operation state; with
the balance-update await failing after the transaction insert, the store
is left with the new row persisted and the balance unapplied. -/
theorem c6_atomicity_counterexample :
    ¬ (∀ (f1 f2 : Bool) (db : DB) (req : CreateTransactionInput),
      (createTransactionF f1 f2 db req).2 = WriteResult.serverError →
      (createTransactionF f1 f2 db req).1 = db) := by
  intro hAtomic
  have h := hAtomic false true dbW reqExpense50 (by
    norm_num +decide [createTransactionF, findActiveAccount, categoryOk, newTxOfCreate,
      List.find?, dbW, reqExpense50])
  have h2 : (createTransactionF false true dbW reqExpense50).1.txs = [] := by
    rw [h]
    rfl
  revert h2
  norm_num +decide [createTransactionF, findActiveAccount, categoryOk, newTxOfCreate,
    List.find?, dbW, reqExpense50]

/-- C6 amended: the transaction write and its balance adjustment are
separate sequential storage operations with no enclosing storage-level
transaction, in the POST handler and in the scheduler's per-subscription
block alike.  When the balance-adjustment await fails after the
transaction write, the handler reports a generic error while the
transaction row remains persisted and no balance changes (the scheduler
additionally leaves `nextBillingDate` unadvanced). -/
theorem c6_amended_non_atomic :
    (∀ db req account, findActiveAccount db req.accountId = some account →
      categoryOk db req.categoryId = true → 0 < req.amount →
      req.type ≠ TxType.TRANSFER →
      (createTransactionF false true db req).2 = WriteResult.serverError ∧
      (createTransactionF false true db req).1.txs
        = db.txs ++ [newTxOfCreate db req account] ∧
      (∀ Y, balanceOf (createTransactionF false true db req).1 Y = balanceOf db Y))
    ∧ (∀ db s account,
      db.accounts.find? (fun a => a.id == s.accountId) = some account →
      (processOneSubscriptionF ⟨false, true, false⟩ db s).2 = true ∧
      (processOneSubscriptionF ⟨false, true, false⟩ db s).1.txs
        = db.txs ++ [txOfSubscription db s account] ∧
      (∀ Y, balanceOf (processOneSubscriptionF ⟨false, true, false⟩ db s).1 Y
        = balanceOf db Y) ∧
      (processOneSubscriptionF ⟨false, true, false⟩ db s).1.subs = db.subs) := by
  constructor
  · intro db req account hacc hcat hpos hty
    have hpos2 : ¬(req.amount ≤ 0) := not_le.mpr hpos
    have hty2 : (req.type == TxType.TRANSFER) = false := by simp [hty]
    refine ⟨?_, ?_, ?_⟩ <;>
      simp [createTransactionF, hpos2, hacc, hcat, hty2, balanceOf]
  · intro db s account hacc
    refine ⟨?_, ?_, ?_, ?_⟩ <;>
      simp [processOneSubscriptionF, hacc, balanceOf]

/-- The single account row of `dbW`. -/
def acctW : Account := { id := 1, balance := 0, currency := "USD", isActive := true }

theorem c6_amended_non_atomic_witness :
    (createTransactionF false true dbW reqExpense50).2 = WriteResult.serverError ∧
    (createTransactionF false true dbW reqExpense50).1.txs
      = dbW.txs ++ [newTxOfCreate dbW reqExpense50 acctW] :=
  have h := c6_amended_non_atomic.1 dbW reqExpense50 acctW
    (by norm_num +decide [findActiveAccount, List.find?, dbW, acctW, reqExpense50])
    (by decide)
    (by norm_num [reqExpense50])
    (by decide)
  ⟨h.1, h.2.1⟩

lemma balanceOf_set_subs (db : DB) (ss : List Subscription) (Y : Nat) :
    balanceOf { db with subs := ss } Y = balanceOf db Y := rfl

/-- The store produced by one successful loop iteration of the scheduler:
the transaction appended, the balance decremented, and the subscription's
nextBillingDate advanced by one cycle computed from its current
nextBillingDate (the current time plays no role in the body). -/
def schedulerResult (db : DB) (s : Subscription) (account : Account) : DB :=
  let tx := txOfSubscription db s account
  let db1 := { db with txs := db.txs ++ [tx], nextId := db.nextId + 1 }
  let db2 := updateBalance db1 s.accountId (-s.amount)
  { db2 with subs := db2.subs.map (fun s2 =>
      if s2.id == s.id
      then { s2 with nextBillingDate := advanceBilling s.billingCycle s.nextBillingDate }
      else s2) }

lemma processOneSubscription_fields {db : DB} {s : Subscription} {account : Account}
    (hacc : db.accounts.find? (fun a => a.id == s.accountId) = some account) :
    (processOneSubscription db s).txs = db.txs ++ [txOfSubscription db s account] ∧
    (processOneSubscription db s).nextId = db.nextId + 1 ∧
    (processOneSubscription db s).subs = db.subs.map (fun s2 =>
      if s2.id == s.id
      then { s2 with nextBillingDate := advanceBilling s.billingCycle s.nextBillingDate }
      else s2) ∧
    (∀ Y, balanceOf (processOneSubscription db s) Y = (balanceOf db Y).map
      (fun b => if Y = s.accountId then b + -s.amount else b)) := by
  have hval : processOneSubscription db s = schedulerResult db s account := by
    unfold processOneSubscription processOneSubscriptionF schedulerResult
    rw [hacc]
    rfl
  refine ⟨by rw [hval]; rfl, by rw [hval]; rfl, by rw [hval]; rfl, ?_⟩
  intro Y
  rw [hval]
  simp only [schedulerResult]
  rw [balanceOf_set_subs, balanceOf_updateBalance, balanceOf_set_txs]

/-- C7: when the scheduler processes a due subscription it advances
nextBillingDate by exactly one billing cycle (setMonth(+1) for MONTHLY,
setFullYear(+1) for YEARLY) computed from the subscription's current
nextBillingDate — `now` does not enter the computation — and creates
exactly one transaction in the run; if the advanced date is still at or
before `now`, the subscription is still due afterwards, so catching up a
multi-cycle-overdue subscription requires repeated runBillingCycle calls. -/
theorem c7_advance_one_cycle (db : DB) (now : JsDate) (s : Subscription)
    (account : Account) (hsubs : db.subs = [s]) (hactive : s.isActive = true)
    (hdue : dateLe s.nextBillingDate now = true)
    (hacc : db.accounts.find? (fun a => a.id == s.accountId) = some account) :
    (runBillingCycle db now).txs.length = db.txs.length + 1 ∧
    (runBillingCycle db now).subs
      = [{ s with nextBillingDate := advanceBilling s.billingCycle s.nextBillingDate }] ∧
    (dateLe (advanceBilling s.billingCycle s.nextBillingDate) now = true →
      dueSubscriptions (runBillingCycle db now) now
        = [{ s with nextBillingDate := advanceBilling s.billingCycle s.nextBillingDate }]) := by
  have hdueList : dueSubscriptions db now = [s] := by
    simp [dueSubscriptions, hsubs, List.filter, hactive, hdue]
  have hrun : runBillingCycle db now = processOneSubscription db s := by
    unfold runBillingCycle runBillingCycleF
    rw [hdueList]
    rfl
  obtain ⟨htxs, hnext, hsubs2, hbal⟩ := processOneSubscription_fields hacc
  have hsubs3 : (runBillingCycle db now).subs
      = [{ s with nextBillingDate := advanceBilling s.billingCycle s.nextBillingDate }] := by
    rw [hrun, hsubs2, hsubs]
    simp
  refine ⟨?_, hsubs3, ?_⟩
  · rw [hrun, htxs]
    simp
  · intro hstill
    unfold dueSubscriptions
    rw [hsubs3]
    simp [List.filter, hactive, hstill]

/-- A MONTHLY subscription three months overdue. -/
def subOverdue : Subscription :=
  { id := 7, name := "Gym", description := none, amount := 20, currency := "ARS",
    billingCycle := BillingCycle.MONTHLY, nextBillingDate := ⟨2023, 10, 1⟩,
    accountId := 1, categoryId := none, isActive := true }

/-- Store with the overdue subscription and its account. -/
def dbOverdue : DB :=
  { accounts := [acctW], categories := [], txs := [], subs := [subOverdue], nextId := 10 }

theorem c7_advance_one_cycle_witness :
    (runBillingCycle dbOverdue ⟨2024, 1, 5⟩).subs
      = [{ subOverdue with
           nextBillingDate := advanceBilling subOverdue.billingCycle subOverdue.nextBillingDate }] ∧
    dueSubscriptions (runBillingCycle dbOverdue ⟨2024, 1, 5⟩) ⟨2024, 1, 5⟩
      = [{ subOverdue with
           nextBillingDate := advanceBilling subOverdue.billingCycle subOverdue.nextBillingDate }] :=
  have h := c7_advance_one_cycle dbOverdue ⟨2024, 1, 5⟩ subOverdue acctW rfl rfl (by decide)
    (by norm_num +decide [List.find?, dbOverdue, acctW, subOverdue])
  ⟨h.2.1, h.2.2 (by decide)⟩

/-- C8: for a due subscription (isActive and nextBillingDate ≤ now), one
scheduler run appends exactly one transaction — an EXPENSE whose amount is
the subscription amount, dated at the subscription's current
nextBillingDate, with the currency taken from the looked-up account (not
from the subscription) and metadata linking back to the subscription id,
name and billing cycle — and decrements the account balance by the
subscription amount. -/
theorem c8_due_subscription_effects (db : DB) (now : JsDate) (s : Subscription)
    (account : Account) (hsubs : db.subs = [s]) (hactive : s.isActive = true)
    (hdue : dateLe s.nextBillingDate now = true)
    (hacc : db.accounts.find? (fun a => a.id == s.accountId) = some account) :
    (runBillingCycle db now).txs = db.txs ++ [txOfSubscription db s account] ∧
    (txOfSubscription db s account).type = TxType.EXPENSE ∧
    (txOfSubscription db s account).amount = s.amount ∧
    (txOfSubscription db s account).date = s.nextBillingDate ∧
    (txOfSubscription db s account).currency = account.currency ∧
    (txOfSubscription db s account).metadata = some ⟨s.id, s.name, s.billingCycle⟩ ∧
    (∀ Y, balanceOf (runBillingCycle db now) Y = (balanceOf db Y).map
      (fun b => if Y = s.accountId then b + -s.amount else b)) := by
  have hdueList : dueSubscriptions db now = [s] := by
    simp [dueSubscriptions, hsubs, List.filter, hactive, hdue]
  have hrun : runBillingCycle db now = processOneSubscription db s := by
    unfold runBillingCycle runBillingCycleF
    rw [hdueList]
    rfl
  obtain ⟨htxs, hnext, hsubs2, hbal⟩ := processOneSubscription_fields hacc
  refine ⟨by rw [hrun, htxs], rfl, rfl, rfl, rfl, rfl, ?_⟩
  intro Y
  rw [hrun, hbal Y]

/-- The spec scenario's subscription: amount 20, MONTHLY, next billing
2024-01-01, drawing on account 1. -/
def subSpecCase : Subscription :=
  { id := 8, name := "Netflix", description := none, amount := 20, currency := "ARS",
    billingCycle := BillingCycle.MONTHLY, nextBillingDate := ⟨2024, 1, 1⟩,
    accountId := 1, categoryId := none, isActive := true }

/-- The spec scenario's account: balance 100, USD. -/
def acct100 : Account := { id := 1, balance := 100, currency := "USD", isActive := true }

/-- Store for the spec scenario. -/
def dbSpecCase : DB :=
  { accounts := [acct100], categories := [], txs := [], subs := [subSpecCase], nextId := 10 }

theorem c8_due_subscription_effects_witness :
    (runBillingCycle dbSpecCase ⟨2024, 1, 1⟩).txs
      = dbSpecCase.txs ++ [txOfSubscription dbSpecCase subSpecCase acct100] ∧
    (txOfSubscription dbSpecCase subSpecCase acct100).currency = "USD" ∧
    balanceOf (runBillingCycle dbSpecCase ⟨2024, 1, 1⟩) 1 = some 80 := by
  have h := c8_due_subscription_effects dbSpecCase ⟨2024, 1, 1⟩ subSpecCase acct100
    rfl rfl (by decide) (by norm_num +decide [List.find?, dbSpecCase, acct100, subSpecCase])
  refine ⟨h.1, rfl, ?_⟩
  rw [h.2.2.2.2.2.2 1]
  norm_num [balanceOf, List.find?, dbSpecCase, acct100, subSpecCase]

lemma updateBalance_account_ids (db : DB) (X : Nat) (d : Rat) :
    (updateBalance db X d).accounts.map (fun a => a.id)
      = db.accounts.map (fun a => a.id) := by
  show (db.accounts.map (adjust X d)).map (fun a => a.id) = _
  rw [List.map_map]
  refine List.map_congr_left ?_
  intro a _
  exact adjust_idem_id X d a

lemma processOneSubF_account_ids (f : SubFail) (db : DB) (s : Subscription) :
    ((processOneSubscriptionF f db s).1).accounts.map (fun a => a.id)
      = db.accounts.map (fun a => a.id) := by
  unfold processOneSubscriptionF
  cases hacc : db.accounts.find? (fun a => a.id == s.accountId) with
  | none => rfl
  | some account =>
    dsimp only
    split
    · rfl
    · split
      · rfl
      · split
        · exact updateBalance_account_ids _ _ _
        · exact updateBalance_account_ids _ _ _

lemma find?_account_none_preserved (f : SubFail) (db : DB) (s : Subscription) (X : Nat)
    (h : db.accounts.find? (fun a => a.id == X) = none) :
    ((processOneSubscriptionF f db s).1).accounts.find? (fun a => a.id == X) = none := by
  rw [List.find?_eq_none] at h ⊢
  intro a ha
  have h1 : a.id ∈ ((processOneSubscriptionF f db s).1).accounts.map (fun a => a.id) :=
    List.mem_map_of_mem _ ha
  rw [processOneSubF_account_ids] at h1
  obtain ⟨a0, ha0, hid⟩ := List.mem_map.mp h1
  have h2 := h a0 ha0
  rw [← hid]
  exact h2

lemma processOneSubF_missing (f : SubFail) {db : DB} {s : Subscription}
    (h : db.accounts.find? (fun a => a.id == s.accountId) = none) :
    processOneSubscriptionF f db s = (db, true) := by
  unfold processOneSubscriptionF
  rw [h]

lemma processOneSubF_failTx (f : SubFail) (h : f.failTx = true) (db : DB) (s : Subscription) :
    (processOneSubscriptionF f db s).1 = db := by
  unfold processOneSubscriptionF
  cases hacc : db.accounts.find? (fun a => a.id == s.accountId) with
  | none => rfl
  | some account =>
    dsimp only
    rw [if_pos h]

/-- C9: during a billing run over a fetched batch [s1, s2, s3], a failure
on s2 — its account missing, or its first storage write failing — is
skipped: s1's already-committed processing is kept, s3 is still processed,
and the run returns a store rather than propagating the error; with every
item failing, the run still returns normally with the store untouched. -/
theorem c9_failure_isolation (db : DB) (now : JsDate) (s1 s2 s3 : Subscription)
    (hdue : dueSubscriptions db now = [s1, s2, s3]) :
    (db.accounts.find? (fun a => a.id == s2.accountId) = none →
      runBillingCycle db now
        = processOneSubscription (processOneSubscription db s1) s3)
    ∧ (∀ fs : Subscription → SubFail, fs s1 = noFail → fs s3 = noFail →
      (fs s2).failTx = true →
      runBillingCycleF fs db now
        = processOneSubscription (processOneSubscription db s1) s3)
    ∧ (∀ fs : Subscription → SubFail, (∀ s, (fs s).failTx = true) →
      runBillingCycleF fs db now = db) := by
  refine ⟨?_, ?_, ?_⟩
  · intro hmiss
    have hm1 : (processOneSubscription db s1).accounts.find?
        (fun a => a.id == s2.accountId) = none :=
      find?_account_none_preserved noFail db s1 s2.accountId hmiss
    unfold runBillingCycle runBillingCycleF
    rw [hdue]
    show (processOneSubscriptionF noFail
      ((processOneSubscriptionF noFail (processOneSubscription db s1) s2).1) s3).1 = _
    rw [processOneSubF_missing noFail hm1]
    rfl
  · intro fs h1 h3 h2
    unfold runBillingCycleF
    rw [hdue]
    show (processOneSubscriptionF (fs s3)
      ((processOneSubscriptionF (fs s2) ((processOneSubscriptionF (fs s1) db s1).1) s2).1) s3).1 = _
    rw [h1, h3, processOneSubF_failTx (fs s2) h2]
    rfl
  · intro fs hall
    clear hdue
    unfold runBillingCycleF
    generalize dueSubscriptions db now = l
    induction l generalizing db with
    | nil => rfl
    | cons s l ih =>
      show l.foldl _ ((processOneSubscriptionF (fs s) db s).1) = db
      rw [processOneSubF_failTx (fs s) (hall s)]
      exact ih db

/-- Due subscription drawing on the existing account 1. -/
def subA : Subscription :=
  { id := 21, name := "A", description := none, amount := 5, currency := "USD",
    billingCycle := BillingCycle.MONTHLY, nextBillingDate := ⟨2024, 1, 1⟩,
    accountId := 1, categoryId := none, isActive := true }

/-- Due subscription whose account (id 99) does not exist. -/
def subB : Subscription :=
  { id := 22, name := "B", description := none, amount := 7, currency := "USD",
    billingCycle := BillingCycle.MONTHLY, nextBillingDate := ⟨2024, 1, 2⟩,
    accountId := 99, categoryId := none, isActive := true }

/-- Another due subscription on account 1, processed after the failure. -/
def subC : Subscription :=
  { id := 23, name := "C", description := none, amount := 9, currency := "USD",
    billingCycle := BillingCycle.YEARLY, nextBillingDate := ⟨2024, 1, 3⟩,
    accountId := 1, categoryId := none, isActive := true }

/-- Store with the three due subscriptions, the middle one orphaned. -/
def dbBatch : DB :=
  { accounts := [acctW], categories := [], txs := [],
    subs := [subA, subB, subC], nextId := 20 }

theorem c9_failure_isolation_witness :
    runBillingCycle dbBatch ⟨2024, 1, 5⟩
      = processOneSubscription (processOneSubscription dbBatch subA) subC :=
  (c9_failure_isolation dbBatch ⟨2024, 1, 5⟩ subA subB subC
    (by norm_num +decide [dueSubscriptions, List.filter, dbBatch, subA, subB, subC])).1
    (by norm_num +decide [List.find?, dbBatch, acctW, subB])

lemma daysInMonth_ge (y m : Nat) : 28 ≤ daysInMonth y m := by
  unfold daysInMonth
  split
  · split <;> omega
  · split <;> omega

lemma daysInMonth_le (y m : Nat) : daysInMonth y m ≤ 31 := by
  unfold daysInMonth
  split
  · split <;> omega
  · split <;> omega

/-- C10: the scheduler advances MONTHLY subscriptions with JS
`Date.setMonth`, which overflows rather than clamps at month ends: for any
valid nextBillingDate whose day-of-month does not exist in the following
month, the advanced date lands in the month after next with the day
overflowed past the next month's end, so the billing day-of-month is not
preserved; in particular January 31 advances to March 2 in a leap year and
March 3 otherwise. -/
theorem c10_setmonth_overflow (d : JsDate) (h1 : 1 ≤ d.month) (h2 : d.month ≤ 11)
    (h3 : d.day ≤ daysInMonth d.year d.month)
    (h4 : daysInMonth d.year (d.month + 1) < d.day) :
    advanceBilling BillingCycle.MONTHLY d
      = ⟨d.year, d.month + 2, d.day - daysInMonth d.year (d.month + 1)⟩ ∧
    (advanceBilling BillingCycle.MONTHLY d).day ≠ d.day ∧
    (advanceBilling BillingCycle.MONTHLY d).month = d.month + 2 ∧
    (∀ y, advanceBilling BillingCycle.MONTHLY ⟨y, 1, 31⟩
      = ⟨y, 3, if isLeapYear y then 2 else 3⟩) := by
  have hd31 : daysInMonth d.year d.month ≤ 31 := daysInMonth_le _ _
  have hd28 : 28 ≤ daysInMonth d.year (d.month + 1) := daysInMonth_ge _ _
  have h5 : d.month ≤ 10 := by
    by_contra h6
    have h7 : d.month = 11 := by omega
    have h8 : daysInMonth d.year (d.month + 1) = 31 := by
      rw [h7]
      simp [daysInMonth]
    have h9 : daysInMonth d.year d.month = 30 := by
      rw [h7]
      simp [daysInMonth]
    omega
  have hmain : advanceBilling BillingCycle.MONTHLY d
      = ⟨d.year, d.month + 2, d.day - daysInMonth d.year (d.month + 1)⟩ := by
    show addMonthJs d = _
    unfold addMonthJs
    dsimp only
    split_ifs <;> first | rfl | (exfalso; omega)
  refine ⟨hmain, ?_, ?_, ?_⟩
  · rw [hmain]
    show d.day - daysInMonth d.year (d.month + 1) ≠ d.day
    intro hc
    omega
  · rw [hmain]
  · intro y
    show addMonthJs ⟨y, 1, 31⟩ = _
    cases hly : isLeapYear y with
    | true => simp [addMonthJs, daysInMonth, hly]
    | false => simp [addMonthJs, daysInMonth, hly]

theorem c10_setmonth_overflow_witness :
    advanceBilling BillingCycle.MONTHLY ⟨2025, 1, 31⟩ = ⟨2025, 3, 3⟩ ∧
    (advanceBilling BillingCycle.MONTHLY ⟨2025, 1, 31⟩).day ≠ 31 :=
  have h := c10_setmonth_overflow ⟨2025, 1, 31⟩ (by decide) (by decide) (by decide)
    (by decide)
  ⟨(h.2.2.2 2025).trans (by decide), h.2.1⟩
